import Mathlib

set_option maxRecDepth 100000

/-!
Verification of the VCF-to-Grandstream-XML converter
(`src/convert_vcf_to_xml.py`).

The Python program is shallowly embedded below.  Python strings become
Lean `String`s; the splitting, stripping, upper/lower-casing and joining
primitives the program uses are given structurally recursive definitions
over the underlying character lists so that every claim can be evaluated
on concrete inputs by kernel reduction.  Python dictionaries become
association lists with Python's update semantics (an existing key is
overwritten in place, a new key is appended at the end).  Code paths
where the Python program raises an exception are modelled with
`Except String`.
-/

namespace Vcf

/-- Characters stripped by Python `str.strip()`. -/
def isPySpace (c : Char) : Bool :=
  c == ' ' || c == '\t' || c == '\n' || c == '\r' || c == '\x0b' || c == '\x0c'

/-- Python `str.strip()`: remove leading and trailing whitespace. -/
def pyStrip (s : String) : String :=
  ⟨((s.data.dropWhile isPySpace).reverse.dropWhile isPySpace).reverse⟩

/-- Python `str.split(sep)` for a one-character separator, all occurrences. -/
def splitOnChar (c : Char) : List Char → List (List Char)
  | [] => [[]]
  | x :: xs =>
    match splitOnChar c xs with
    | [] => [[]]
    | r :: rs => if x = c then [] :: r :: rs else (x :: r) :: rs

def strSplit (s : String) (c : Char) : List String :=
  (splitOnChar c s.data).map String.mk

/-- Python `sep.join(list)` for a one-character separator. -/
def joinWithChar (c : Char) : List (List Char) → List Char
  | [] => []
  | [x] => x
  | x :: y :: rest => x ++ c :: joinWithChar c (y :: rest)

def strJoin (c : Char) (l : List String) : String :=
  ⟨joinWithChar c (l.map String.data)⟩

def strUpper (s : String) : String := ⟨s.data.map Char.toUpper⟩

def strLower (s : String) : String := ⟨s.data.map Char.toLower⟩

def strContainsChar (s : String) (c : Char) : Bool := s.data.contains c

/-- Python `line.startswith(' ') or line.startswith('\t')`. -/
def startsWithSpaceOrTab (line : String) : Bool :=
  match line.data with
  | c :: _ => c == ' ' || c == '\t'
  | [] => false

/-- The keypad table of `convert_letters_to_digits` (lines 11-20). -/
def keypadDigit (c : Char) : Option Char :=
  if c = 'A' ∨ c = 'B' ∨ c = 'C' then some '2'
  else if c = 'D' ∨ c = 'E' ∨ c = 'F' then some '3'
  else if c = 'G' ∨ c = 'H' ∨ c = 'I' then some '4'
  else if c = 'J' ∨ c = 'K' ∨ c = 'L' then some '5'
  else if c = 'M' ∨ c = 'N' ∨ c = 'O' then some '6'
  else if c = 'P' ∨ c = 'Q' ∨ c = 'R' ∨ c = 'S' then some '7'
  else if c = 'T' ∨ c = 'U' ∨ c = 'V' then some '8'
  else if c = 'W' ∨ c = 'X' ∨ c = 'Y' ∨ c = 'Z' then some '9'
  else none

/-- `convert_letters_to_digits`: uppercase, then map keypad letters. -/
def convert_letters_to_digits (phone_str : String) : String :=
  ⟨(strUpper phone_str).data.map fun c =>
    match keypadDigit c with
    | some d => d
    | none => c⟩

/-- Characters kept by the sanitizing regex `[^\+\*#0-9]` removal. -/
def isDtmfChar (c : Char) : Bool :=
  c == '+' || c == '*' || c == '#' || c.isDigit

/-- `sanitize_phone_number`: letters to digits, then keep only `+ * #` and digits. -/
def sanitize_phone_number (phone_str : String) : String :=
  ⟨(convert_letters_to_digits phone_str).data.filter isDtmfChar⟩

/-- `count_digits`: number of characters in `0`-`9`. -/
def count_digits (phone_str : String) : Nat :=
  (phone_str.data.filter Char.isDigit).length

/-- A decoded parameter value: Python stores a string, a list of strings
(for accumulated `TYPE` values), or the boolean `True` (for bare flags). -/
inductive ParamValue where
  | single (s : String)
  | multi (l : List String)
  | flag
  deriving DecidableEq, Repr

/-- The parameter dictionary of one property line. -/
abbrev Params := List (String × ParamValue)

/-- Python dict assignment `params[k] = v`: overwrite in place or append. -/
def paramInsert : Params → String → ParamValue → Params
  | [], k, v => [(k, v)]
  | (k1, v1) :: rest, k, v =>
    if k1 = k then (k, v) :: rest else (k1, v1) :: paramInsert rest k v

/-- Python dict lookup `params.get(k)` / `params[k]`. -/
def paramLookup : Params → String → Option ParamValue
  | [], _ => none
  | (k1, v1) :: rest, k => if k1 = k then some v1 else paramLookup rest k

/-- One occurrence of a property: its raw value and decoded parameters. -/
structure RawProp where
  value : String
  params : Params
  deriving DecidableEq, Repr

/-- The intermediate contact: property name to ordered occurrences. -/
abbrev Contact := List (String × List RawProp)

/-- `current_contact[prop_name].append(...)`, creating the key if absent. -/
def contactAdd : Contact → String → RawProp → Contact
  | [], k, rp => [(k, [rp])]
  | (k1, l1) :: rest, k, rp =>
    if k1 = k then (k1, l1 ++ [rp]) :: rest else (k1, l1) :: contactAdd rest k rp

/-- Membership / lookup in the contact dictionary. -/
def contactFind : Contact → String → Option (List RawProp)
  | [], _ => none
  | (k1, l1) :: rest, k => if k1 = k then some l1 else contactFind rest k

/-- One step of the parameter loop of `parse_vcard_line` (lines 83-92):
state is `(params, type_values)`. -/
def paramStep (acc : Params × List String) (param : String) : Params × List String :=
  match strSplit param '=' with
  | key :: v :: vs =>
    let val := strJoin '=' (v :: vs)
    if strUpper key = "TYPE" then (acc.1, acc.2 ++ [strUpper val])
    else (paramInsert acc.1 (strUpper key) (ParamValue.single (strUpper val)), acc.2)
  | _ => (paramInsert acc.1 (strUpper param) ParamValue.flag, acc.2)

/-- `parse_vcard_line` (lines 62-101).  Returns `none` where Python
returns `(None, None, None)`. -/
def parse_vcard_line (rawLine : String) : Option (String × Params × String) :=
  let line := pyStrip rawLine
  if line = "" then none
  else
    match strSplit line ':' with
    | prop_part :: v :: vs =>
      let value := strJoin ':' (v :: vs)
      if strContainsChar prop_part ';' then
        match strSplit prop_part ';' with
        | prop_name :: rest =>
          let acc := rest.foldl paramStep ([], [])
          let params :=
            if acc.2 = [] then acc.1 else paramInsert acc.1 "TYPE" (ParamValue.multi acc.2)
          some (strUpper prop_name, params, value)
        | [] => none
      else some (strUpper prop_part, [], value)
    | _ => none

/-- One iteration of the line loop of `parse_vcf_file` (lines 110-134):
state is `(contacts, current_contact)`.  The stripped line is tested for
emptiness and for a leading space or tab before being decoded. -/
def parseStep (st : List Contact × Contact) (rawLine : String) : List Contact × Contact :=
  if pyStrip rawLine = "" then st
  else if startsWithSpaceOrTab (pyStrip rawLine) then st
  else
    match parse_vcard_line rawLine with
    | none => st
    | some (prop_name, params, value) =>
      if prop_name = "BEGIN" ∧ value = "VCARD" then (st.1, [])
      else if prop_name = "END" ∧ value = "VCARD" then
        (if st.2 ≠ [] then (st.1 ++ [st.2], []) else st)
      else if prop_name ≠ "" then (st.1, contactAdd st.2 prop_name ⟨value, params⟩)
      else st

def parseLines (lines : List String) : List Contact :=
  (lines.foldl parseStep ([], [])).1

/-- `parse_vcf_file` (lines 103-136): split on newlines, scan, return
the accumulated contacts (dropping any unterminated record). -/
def parse_vcf_file (vcf_content : String) : List Contact :=
  parseLines (strSplit vcf_content '\n')

/-- Whether a line decodes to `END:VCARD` (the only case in which the
scanner extends the returned contact list). -/
def isEndLine (rawLine : String) : Bool :=
  match parse_vcard_line rawLine with
  | some (n, _, v) => n == "END" && v == "VCARD"
  | none => false

/-- Name extraction from the `N` property (lines 143-150).  Indexing an
empty occurrence list would raise in Python. -/
def nameFromN (contact : Contact) : Except String (String × String) :=
  match contactFind contact "N" with
  | some [] => Except.error "IndexError: list index out of range"
  | some (rp :: _) =>
    let name_parts := strSplit rp.value ';'
    if name_parts.length ≥ 2 then
      Except.ok (pyStrip (name_parts.getD 1 ""), pyStrip (name_parts.getD 0 ""))
    else Except.ok ("", "")
  | none => Except.ok ("", "")

/-- Name extraction including the `FN` fallback (lines 140-154).
Returns `(firstname, lastname)`. -/
def extractName (contact : Contact) : Except String (String × String) :=
  match nameFromN contact with
  | Except.error e => Except.error e
  | Except.ok nm =>
    if nm.1 = "" then
      match contactFind contact "FN" with
      | some [] => Except.error "IndexError: list index out of range"
      | some (rp :: _) => Except.ok (pyStrip rp.value, nm.2)
      | none => Except.ok nm
    else Except.ok nm

/-- The first-match scan over a `TYPE` list (lines 178-188). -/
def scanTypes : List String → String
  | [] => "Work"
  | t :: rest =>
    if strLower t = "cell" ∨ strLower t = "mobile" then "Mobile"
    else if strLower t = "home" then "Home"
    else if strLower t = "work" then "Work"
    else scanTypes rest

/-- Category resolution for one `TEL` occurrence (lines 170-200).
A bare `TYPE` parameter was stored as boolean `True`, on which the
non-list fallback branch calls `.lower()` and raises. -/
def telCategory (params : Params) : Except String String :=
  match paramLookup params "TYPE" with
  | some (ParamValue.multi type_values) => Except.ok (scanTypes type_values)
  | some (ParamValue.single tv) =>
    Except.ok
      (if strLower tv = "cell" ∨ strLower tv = "mobile" then "Mobile"
       else if strLower tv = "home" then "Home"
       else if strLower tv = "work" then "Work"
       else "Work")
  | some ParamValue.flag => Except.error "AttributeError: bool object has no attribute lower"
  | none => Except.ok "Work"

/-- The `TEL` loop of `extract_contact_info` (lines 160-202): collect at
most three accepted `(category, digits)` pairs. -/
def telLoop : List RawProp → List (String × String) → Except String (List (String × String))
  | [], acc => Except.ok acc
  | tel :: rest, acc =>
    if acc.length ≥ 3 then Except.ok acc
    else if sanitize_phone_number (pyStrip tel.value) ≠ "" ∧
        count_digits (sanitize_phone_number (pyStrip tel.value)) > 6 then
      match telCategory tel.params with
      | Except.error e => Except.error e
      | Except.ok t => telLoop rest (acc ++ [(t, sanitize_phone_number (pyStrip tel.value))])
    else telLoop rest acc

def extractPhones (contact : Contact) : Except String (List (String × String)) :=
  match contactFind contact "TEL" with
  | none => Except.ok []
  | some tels => telLoop tels []

/-- `extract_contact_info` (lines 138-204): names first, then phones;
any exception propagates. -/
def extract_contact_info (contact : Contact) :
    Except String (String × String × List (String × String)) :=
  match extractName contact with
  | Except.error e => Except.error e
  | Except.ok nm =>
    match extractPhones contact with
    | Except.error e => Except.error e
    | Except.ok phone_numbers => Except.ok (nm.1, nm.2, phone_numbers)

/-- `html.escape` with its default quoting. -/
def escapeChar (c : Char) : List Char :=
  if c = '&' then "&amp;".data
  else if c = '<' then "&lt;".data
  else if c = '>' then "&gt;".data
  else if c = '"' then "&quot;".data
  else if c = '\'' then "&#x27;".data
  else [c]

def escape (s : String) : String := ⟨(s.data.map escapeChar).flatten⟩

/-- The phone blocks of `generate_contact_xml` (lines 219-223). -/
def phoneBlocks (phone_numbers : List (String × String)) : List String :=
  phone_numbers.foldl
    (fun acc pn =>
      acc ++ ["<Phone type=\"" ++ pn.1 ++ "\">",
              "<phonenumber>" ++ escape pn.2 ++ "</phonenumber>",
              "<accountindex>1</accountindex>",
              "</Phone>"])
    []

/-- `generate_contact_xml` (lines 206-229): `none` models Python's
`None` rejection result. -/
def generate_contact_xml (contact_id : Nat) (firstname lastname : String)
    (phone_numbers : List (String × String)) : Option String :=
  if firstname = "" ∨ phone_numbers = [] then none
  else
    some (strJoin '\n'
      (["<Contact>",
        "<id>" ++ toString contact_id ++ "</id>",
        "<FirstName>" ++ escape firstname ++ "</FirstName>"]
       ++ (if lastname ≠ "" then ["<LastName>" ++ escape lastname ++ "</LastName>"] else [])
       ++ phoneBlocks phone_numbers
       ++ ["<Frequent>0</Frequent>", "<Primary>0</Primary>", "</Contact>"]))

/-- The conversion loop of `convert_vcf_to_xml` (lines 245-255): the id
counter advances only when a contact is accepted. -/
def convertLoop : List Contact → Nat → Except String (List String × Nat)
  | [], n => Except.ok ([], n)
  | c :: cs, n =>
    match extract_contact_info c with
    | Except.error e => Except.error e
    | Except.ok r =>
      match generate_contact_xml n r.1 r.2.1 r.2.2 with
      | some x =>
        match convertLoop cs (n + 1) with
        | Except.error e => Except.error e
        | Except.ok (rest, nF) => Except.ok (x :: rest, nF)
      | none => convertLoop cs n

/-- The pure content transformation of `convert_vcf_to_xml`
(lines 231-261), file handling aside: an `Except.error` models the
program reaching its generic exception handler. -/
def convert_vcf_to_xml (vcf_content : String) : Except String String :=
  match convertLoop (parse_vcf_file vcf_content) 1 with
  | Except.error e => Except.error e
  | Except.ok res =>
    Except.ok (strJoin '\n'
      (["<?xml version=\"1.0\" encoding=\"UTF-8\"?>", "<AddressBook>"]
       ++ res.1 ++ ["</AddressBook>"]))

/-! Concrete inputs used to evaluate the pipeline in the theorems below. -/

/-- The worked example record of the specification. -/
def smithInput : String :=
  "BEGIN:VCARD\nN:Smith;John;;;\nTEL;TYPE=CELL:1-800-FLOWERS\nEND:VCARD"

/-- The contact `parse_vcf_file` builds from `smithInput`. -/
def cSmith : Contact :=
  [("N", [⟨"Smith;John;;;", []⟩]),
   ("TEL", [⟨"1-800-FLOWERS", [("TYPE", ParamValue.multi ["CELL"])]⟩])]

/-- The contact block emitted for `cSmith`. -/
def xmlSmith : String :=
  "<Contact>\n<id>1</id>\n<FirstName>John</FirstName>\n<LastName>Smith</LastName>\n<Phone type=\"Mobile\">\n<phonenumber>18003569377</phonenumber>\n<accountindex>1</accountindex>\n</Phone>\n<Frequent>0</Frequent>\n<Primary>0</Primary>\n</Contact>"

/-- A contact with a name but no phone: rejected by the emitter. -/
def cRej : Contact := [("FN", [⟨"Ann", []⟩])]

/-- A contact with a name and one long-enough untyped phone: accepted. -/
def cAcc : Contact := [("FN", [⟨"Bob", []⟩]), ("TEL", [⟨"12345678", []⟩])]

/-- The contact block emitted for `cAcc` under id 1. -/
def xmlBob : String :=
  "<Contact>\n<id>1</id>\n<FirstName>Bob</FirstName>\n<Phone type=\"Work\">\n<phonenumber>12345678</phonenumber>\n<accountindex>1</accountindex>\n</Phone>\n<Frequent>0</Frequent>\n<Primary>0</Primary>\n</Contact>"

/-! Helper lemmas about the record scanner. -/

/-- All occurrence lists stored in a contact are non-empty. -/
def goodContact (c : Contact) : Prop := ∀ e ∈ c, e.2 ≠ []

theorem goodContact_nil : goodContact ([] : Contact) :=
  fun e he => absurd he (List.not_mem_nil e)

theorem contactAdd_good (k : String) (rp : RawProp) :
    ∀ c : Contact, goodContact c → goodContact (contactAdd c k rp) := by
  intro c
  induction c with
  | nil =>
    intro _ e he
    simp only [contactAdd, List.mem_singleton] at he
    subst he
    simp
  | cons hd tl ih =>
    intro h e he
    obtain ⟨k1, l1⟩ := hd
    simp only [contactAdd] at he
    split at he
    · rcases List.mem_cons.mp he with rfl | hmem
      · simp
      · exact h e (List.mem_cons_of_mem _ hmem)
    · rcases List.mem_cons.mp he with rfl | hmem
      · exact h (k1, l1) (List.mem_cons_self _ _)
      · exact ih (fun e2 he2 => h e2 (List.mem_cons_of_mem _ he2)) e hmem

theorem contactFind_mem :
    ∀ (c : Contact) (k : String) (l : List RawProp),
      contactFind c k = some l → ∃ e ∈ c, e.2 = l := by
  intro c
  induction c with
  | nil => intro k l h; simp [contactFind] at h
  | cons hd tl ih =>
    intro k l h
    obtain ⟨k1, l1⟩ := hd
    simp only [contactFind] at h
    split at h
    · injection h with h
      exact ⟨(k1, l1), List.mem_cons_self _ _, h⟩
    · obtain ⟨e, he, h2⟩ := ih k l h
      exact ⟨e, List.mem_cons_of_mem _ he, h2⟩

theorem parseStep_preserves_good (st : List Contact × Contact) (l : String)
    (h1 : ∀ c ∈ st.1, goodContact c) (h2 : goodContact st.2) :
    (∀ c ∈ (parseStep st l).1, goodContact c) ∧ goodContact (parseStep st l).2 := by
  unfold parseStep
  split
  · exact ⟨h1, h2⟩
  split
  · exact ⟨h1, h2⟩
  split
  · exact ⟨h1, h2⟩
  split_ifs with hB hE hcur hN
  · exact ⟨h1, goodContact_nil⟩
  · refine ⟨?_, goodContact_nil⟩
    intro c hc
    rcases List.mem_append.mp hc with hc | hc
    · exact h1 c hc
    · rw [List.mem_singleton] at hc
      subst hc
      exact h2
  · exact ⟨h1, h2⟩
  · exact ⟨h1, contactAdd_good _ _ st.2 h2⟩
  · exact ⟨h1, h2⟩

theorem parseStep_preserves_nonempty (st : List Contact × Contact) (l : String)
    (h1 : ∀ c ∈ st.1, c ≠ []) : ∀ c ∈ (parseStep st l).1, c ≠ [] := by
  unfold parseStep
  split
  · exact h1
  split
  · exact h1
  split
  · exact h1
  split_ifs with hB hE hcur hN
  · exact h1
  · intro c hc
    rcases List.mem_append.mp hc with hc | hc
    · exact h1 c hc
    · rw [List.mem_singleton] at hc
      subst hc
      exact hcur
  · exact h1
  · exact h1
  · exact h1

theorem foldl_parseStep_good :
    ∀ (ls : List String) (st : List Contact × Contact),
      (∀ c ∈ st.1, goodContact c) → goodContact st.2 →
      ∀ c ∈ (List.foldl parseStep st ls).1, goodContact c := by
  intro ls
  induction ls with
  | nil => intro st hA _; simpa using hA
  | cons l ls ih =>
    intro st hA hB
    have h := parseStep_preserves_good st l hA hB
    simpa [List.foldl_cons] using ih (parseStep st l) h.1 h.2

theorem foldl_parseStep_nonempty :
    ∀ (ls : List String) (st : List Contact × Contact),
      (∀ c ∈ st.1, c ≠ []) →
      ∀ c ∈ (List.foldl parseStep st ls).1, c ≠ [] := by
  intro ls
  induction ls with
  | nil => intro st hA; simpa using hA
  | cons l ls ih =>
    intro st hA
    simpa [List.foldl_cons] using ih (parseStep st l) (parseStep_preserves_nonempty st l hA)

/-- On a line that does not decode to `END:VCARD`, the scanner leaves the
accumulated contact list unchanged. -/
theorem parseStep_contacts_of_not_end (st : List Contact × Contact) (l : String)
    (h : isEndLine l = false) : (parseStep st l).1 = st.1 := by
  unfold parseStep
  split
  · rfl
  split
  · rfl
  split
  · rfl
  rename_i prop_name params value heq
  unfold isEndLine at h
  rw [heq] at h
  simp only [Bool.and_eq_false_iff, beq_eq_false_iff_ne, ne_eq] at h
  split_ifs with hB hE hcur hN
  · rfl
  · rcases h with h | h
    · exact absurd hE.1 h
    · exact absurd hE.2 h
  · rcases h with h | h
    · exact absurd hE.1 h
    · exact absurd hE.2 h
  · rfl
  · rfl

theorem foldl_parseStep_contacts_const :
    ∀ (ls : List String) (st : List Contact × Contact),
      (∀ l ∈ ls, isEndLine l = false) →
      (List.foldl parseStep st ls).1 = st.1 := by
  intro ls
  induction ls with
  | nil => intro st _; rfl
  | cons l ls ih =>
    intro st h
    rw [List.foldl_cons, ih (parseStep st l) (fun l2 hl2 => h l2 (List.mem_cons_of_mem _ hl2)),
      parseStep_contacts_of_not_end st l (h l (List.mem_cons_self _ _))]

/-- Decoding and dispatching `BEGIN:VCARD` resets the current record and
keeps the accumulated contacts. -/
theorem parseStep_begin (st : List Contact × Contact) :
    parseStep st "BEGIN:VCARD" = (st.1, []) := rfl

/-- C1: the claim says every line beginning with a space or tab is
recognized as a folding continuation and skipped, contributing nothing to
any contact.  The code strips each line before the space/tab test, so the
test never fires: a continuation line containing a colon is decoded as an
ordinary property line.  Here the folded line `" NOTE:folded tail"`
contributes a `NOTE` property to the parsed contact. -/
theorem folded_line_with_colon_contributes :
    parse_vcf_file "BEGIN:VCARD\nN:Smith;John;;;\n NOTE:folded tail\nEND:VCARD" =
      [[("N", [⟨"Smith;John;;;", []⟩]), ("NOTE", [⟨"folded tail", []⟩])]] := rfl

/-- C2: the claim says the parsing and normalization pipeline never
raises.  On the record below, `parse_vcard_line` stores the bare `TYPE`
parameter as boolean `True`; because the sanitized number passes the
digit filter, `extract_contact_info` reaches the non-list `TYPE`
fallback and Python evaluates `True.lower()`, raising `AttributeError`.
The model reproduces the raise as an `Except.error` reaching the
top-level handler of `convert_vcf_to_xml`. -/
theorem bare_type_flag_raises :
    parse_vcf_file "BEGIN:VCARD\nFN:Bob\nTEL;TYPE:5551234567\nEND:VCARD" =
      [[("FN", [⟨"Bob", []⟩]), ("TEL", [⟨"5551234567", [("TYPE", ParamValue.flag)]⟩])]]
    ∧ extract_contact_info
        [("FN", [⟨"Bob", []⟩]), ("TEL", [⟨"5551234567", [("TYPE", ParamValue.flag)]⟩])] =
      Except.error "AttributeError: bool object has no attribute lower"
    ∧ convert_vcf_to_xml "BEGIN:VCARD\nFN:Bob\nTEL;TYPE:5551234567\nEND:VCARD" =
      Except.error "AttributeError: bool object has no attribute lower" :=
  ⟨rfl, rfl, rfl⟩

/-- C3 counterexample: the claim says a property line outside any
BEGIN/END pair appears in no returned contact.  With no `BEGIN:VCARD` at
all, the `N` line is accumulated and a following `END:VCARD` appends the
accumulated record, so the property does appear in a returned contact. -/
theorem property_before_end_without_begin_kept :
    parse_vcf_file "N:Smith;John;;;\nEND:VCARD" = [[("N", [⟨"Smith;John;;;", []⟩])]] := rfl

/-- C4 counterexample: the claim says the `FN` fallback returns an empty
lastName.  With `N:Smith;;;;` the structured name yields an empty
firstName but lastName `Smith`; the `FN` fallback then fills firstName
while lastName stays `Smith`, not empty. -/
theorem fn_fallback_keeps_n_lastname :
    extract_contact_info [("N", [⟨"Smith;;;;", []⟩]), ("FN", [⟨"Bob", []⟩])] =
      Except.ok ("Bob", "Smith", []) ∧ ("Smith" : String) ≠ "" := by
  exact ⟨rfl, by decide⟩

/-- C6 counterexample: the claim says `TYPE=HOME,FAX` yields Home.  The
decoder does not split parameter values on commas: the literal line
stores the single list element `"HOME,FAX"`, which matches none of
cell/mobile/home/work, so the category defaults to Work. -/
theorem type_home_comma_fax_is_work :
    parse_vcard_line "TEL;TYPE=HOME,FAX:5551234567" =
      some ("TEL", [("TYPE", ParamValue.multi ["HOME,FAX"])], "5551234567")
    ∧ extract_contact_info
        [("N", [⟨"Doe;Jane;;;", []⟩]),
         ("TEL", [⟨"5551234567", [("TYPE", ParamValue.multi ["HOME,FAX"])]⟩])] =
      Except.ok ("Jane", "Doe", [("Work", "5551234567")])
    ∧ ("Work" : String) ≠ "Home" := by
  exact ⟨rfl, rfl, by decide⟩

/-- C8: on the record `BEGIN:VCARD / N:Smith;John;;; /
TEL;TYPE=CELL:1-800-FLOWERS / END:VCARD` the pipeline parses exactly one
contact, extracts firstName `John`, lastName `Smith` and one Mobile
phone with keypad-mapped digits `18003569377`, and emits exactly one
accepted contact block with id 1 (the next free id being 2). -/
theorem flowers_example :
    parse_vcf_file smithInput = [cSmith]
    ∧ extract_contact_info cSmith = Except.ok ("John", "Smith", [("Mobile", "18003569377")])
    ∧ convertLoop [cSmith] 1 = Except.ok ([xmlSmith], 2)
    ∧ convert_vcf_to_xml smithInput =
      Except.ok ("<?xml version=\"1.0\" encoding=\"UTF-8\"?>\n<AddressBook>\n"
        ++ xmlSmith ++ "\n</AddressBook>") :=
  ⟨rfl, rfl, rfl, rfl⟩

/-- C3 (amended): a property line occurring before any `BEGIN:VCARD` is
accumulated into the pending record — it is discarded when a later
`BEGIN:VCARD` opens a fresh record, but an `END:VCARD` arriving first
emits the accumulated properties as a contact; an unterminated record
with no `END:VCARD` line is silently dropped at end of input; and a
contact is appended at `END:VCARD` only if it is non-empty. -/
theorem record_scanning_amended :
    (∀ (pre ls : List String), (∀ l ∈ pre, isEndLine l = false) →
      parseLines (pre ++ "BEGIN:VCARD" :: ls) = parseLines ("BEGIN:VCARD" :: ls))
    ∧ (∀ ls : List String, (∀ l ∈ ls, isEndLine l = false) → parseLines ls = [])
    ∧ (∀ (content : String) (c : Contact), c ∈ parse_vcf_file content → c ≠ []) := by
  refine ⟨?_, ?_, ?_⟩
  · intro pre ls h
    unfold parseLines
    rw [List.foldl_append]
    have hpre : (List.foldl parseStep ([], []) pre).1 = [] :=
      foldl_parseStep_contacts_const pre ([], []) h
    rw [List.foldl_cons, List.foldl_cons, parseStep_begin, parseStep_begin, hpre]
  · intro ls h
    exact foldl_parseStep_contacts_const ls ([], []) h
  · intro content c hc
    exact foldl_parseStep_nonempty (strSplit content '\n') ([], [])
      (fun c2 hc2 => absurd hc2 (List.not_mem_nil c2)) c hc

/-- C3 witness: properties before a `BEGIN:VCARD` do not affect the
result when a `BEGIN` comes before any `END`; input with no `END:VCARD`
yields no contacts; and a concretely parsed contact is non-empty. -/
theorem record_scanning_amended_witness :
    parseLines ["X:1", "BEGIN:VCARD", "FN:A", "TEL:12345678", "END:VCARD"] =
      parseLines ["BEGIN:VCARD", "FN:A", "TEL:12345678", "END:VCARD"]
    ∧ parseLines ["BEGIN:VCARD", "N:x"] = []
    ∧ ([("FN", [⟨"A", []⟩])] : Contact) ≠ [] := by
  refine ⟨record_scanning_amended.1 ["X:1"] ["FN:A", "TEL:12345678", "END:VCARD"] ?_,
    record_scanning_amended.2.1 ["BEGIN:VCARD", "N:x"] ?_,
    record_scanning_amended.2.2 "BEGIN:VCARD\nFN:A\nEND:VCARD" [("FN", [⟨"A", []⟩])] ?_⟩
  · decide
  · decide
  · decide

/-- C10: in every contact returned by `parse_vcf_file`, every present
property key maps to a non-empty occurrence list, so the first-occurrence
accesses `contact['N'][0]`, `contact['FN'][0]` and the `contact['TEL']`
iteration never index into an empty list. -/
theorem nonempty_occurrence_lists :
    ∀ (content : String) (c : Contact), c ∈ parse_vcf_file content →
    ∀ (k : String) (l : List RawProp), contactFind c k = some l → l ≠ [] := by
  intro content c hc k l hf
  have hg : goodContact c :=
    foldl_parseStep_good (strSplit content '\n') ([], [])
      (fun c2 hc2 => absurd hc2 (List.not_mem_nil c2)) goodContact_nil c hc
  obtain ⟨e, he, hel⟩ := contactFind_mem c k l hf
  exact hel ▸ hg e he

/-- C10 witness: the single occurrence list of a concretely parsed
contact is non-empty. -/
theorem nonempty_occurrence_lists_witness :
    0 < ([⟨"Bob", []⟩] : List RawProp).length :=
  List.length_pos.mpr
    (nonempty_occurrence_lists "BEGIN:VCARD\nFN:Bob\nEND:VCARD" [("FN", [⟨"Bob", []⟩])]
      (by decide) "FN" [⟨"Bob", []⟩] rfl)

/-- C4 (amended): when the N-based firstName is empty and an `FN` key is
present, `extract_contact_info` sets firstName to the trimmed value of
FN's first occurrence, and lastName keeps whatever value the N-based
extraction produced (which may be non-empty). -/
theorem fn_fallback_amended :
    ∀ (c : Contact) (fn ln : String) (rp : RawProp) (rest : List RawProp)
      (out : String × String × List (String × String)),
      nameFromN c = Except.ok (fn, ln) → fn = "" →
      contactFind c "FN" = some (rp :: rest) →
      extract_contact_info c = Except.ok out →
      out.1 = pyStrip rp.value ∧ out.2.1 = ln := by
  intro c fn ln rp rest out hN hfn hFN hex
  subst hfn
  have hname : extractName c = Except.ok (pyStrip rp.value, ln) := by
    unfold extractName
    rw [hN]
    simp [hFN]
  unfold extract_contact_info at hex
  rw [hname] at hex
  cases hph : extractPhones c with
  | error e => rw [hph] at hex; exact Except.noConfusion hex
  | ok ph =>
    rw [hph] at hex
    injection hex with hex
    subst hex
    exact ⟨rfl, rfl⟩

/-- C4 witness: on a contact with `N:Smith;;;;` and `FN: Bob `, the
fallback sets firstName to the trimmed FN value while lastName stays
`Smith`. -/
theorem fn_fallback_amended_witness :
    ("Bob" : String) = pyStrip " Bob " ∧ ("Smith" : String) = "Smith" :=
  fn_fallback_amended [("N", [⟨"Smith;;;;", []⟩]), ("FN", [⟨" Bob ", []⟩])]
    "" "Smith" ⟨" Bob ", []⟩ [] ("Bob", "Smith", []) rfl rfl rfl rfl

/-- Only numbers whose sanitized form is non-empty with more than six
digits are ever appended by the `TEL` loop. -/
theorem telLoop_filter :
    ∀ (tels : List RawProp) (acc res : List (String × String)),
      (∀ p ∈ acc, p.2 ≠ "" ∧ count_digits p.2 > 6) →
      telLoop tels acc = Except.ok res →
      ∀ p ∈ res, p.2 ≠ "" ∧ count_digits p.2 > 6 := by
  intro tels
  induction tels with
  | nil =>
    intro acc res hacc h
    simp only [telLoop] at h
    injection h with h
    subst h
    exact hacc
  | cons tel rest ih =>
    intro acc res hacc h
    simp only [telLoop] at h
    split at h
    · injection h with h
      subst h
      exact hacc
    · split at h
      · rename_i hlen hcond
        split at h
        · exact Except.noConfusion h
        · rename_i t heq
          refine ih (acc ++ [(t, sanitize_phone_number (pyStrip tel.value))]) res ?_ h
          intro p hp
          rcases List.mem_append.mp hp with hp | hp
          · exact hacc p hp
          · rw [List.mem_singleton] at hp
            subst hp
            exact ⟨hcond.1, hcond.2⟩
      · exact ih acc res hacc h

/-- C5: a `TEL` occurrence whose sanitized number is empty or has at
most six digits is skipped by the loop, and consequently every phone
pair reaching an extracted (hence emitted) contact has a non-empty
sanitized number with more than six digits. -/
theorem digit_filter :
    (∀ (tel : RawProp) (rest : List RawProp) (acc : List (String × String)),
      acc.length < 3 →
      (sanitize_phone_number (pyStrip tel.value) = "" ∨
        count_digits (sanitize_phone_number (pyStrip tel.value)) ≤ 6) →
      telLoop (tel :: rest) acc = telLoop rest acc)
    ∧ (∀ (c : Contact) (fn ln : String) (ph : List (String × String)),
      extract_contact_info c = Except.ok (fn, ln, ph) →
      ∀ p ∈ ph, p.2 ≠ "" ∧ count_digits p.2 > 6) := by
  constructor
  · intro tel rest acc hlen hbad
    have hcond : ¬(sanitize_phone_number (pyStrip tel.value) ≠ "" ∧
        count_digits (sanitize_phone_number (pyStrip tel.value)) > 6) := by
      rcases hbad with h | h
      · exact fun hc => hc.1 h
      · exact fun hc => absurd hc.2 (by omega)
    simp only [telLoop]
    rw [if_neg (by omega), if_neg hcond]
  · intro c fn ln ph hex p hp
    unfold extract_contact_info at hex
    cases hnm : extractName c with
    | error e => rw [hnm] at hex; exact Except.noConfusion hex
    | ok nm =>
      rw [hnm] at hex
      cases hph : extractPhones c with
      | error e => rw [hph] at hex; exact Except.noConfusion hex
      | ok ph2 =>
        rw [hph] at hex
        injection hex with hex
        have hph2 : ph2 = ph := congrArg (fun x => x.2.2) hex
        subst hph2
        unfold extractPhones at hph
        cases htel : contactFind c "TEL" with
        | none =>
          rw [htel] at hph
          injection hph with hph
          subst hph
          exact absurd hp (List.not_mem_nil p)
        | some tels =>
          rw [htel] at hph
          exact telLoop_filter tels [] ph2
            (fun q hq => absurd hq (List.not_mem_nil q)) hph p hp

/-- C5 witness: a five-digit number is skipped, and a concrete extracted
phone passes the filter. -/
theorem digit_filter_witness :
    telLoop [⟨"12345", []⟩] [] = telLoop [] []
    ∧ ("12345678" : String) ≠ "" ∧ count_digits "12345678" > 6 := by
  refine ⟨digit_filter.1 ⟨"12345", []⟩ [] [] (by decide) (Or.inr (by decide)),
    digit_filter.2 cAcc "Bob" "" [("Work", "12345678")] rfl ("Work", "12345678") ?_⟩
  decide

/-- C6 (amended): with a decoded `TYPE` list the category is the result
of scanning the list in order, stopping at the first value that
case-insensitively equals cell/mobile (Mobile), home (Home) or work
(Work); with no match, or no `TYPE` at all, the category is Work.  The
decoded list `[HOME, FAX]` (from repeated `TYPE` parameters) yields
Home and `[PAGER]` yields Work, but the literal comma-joined parameter
`TYPE=HOME,FAX` is stored as the single unmatched value `HOME,FAX` and
yields Work. -/
theorem type_scan_amended :
    (∀ (params : Params) (l : List String),
      paramLookup params "TYPE" = some (ParamValue.multi l) →
      telCategory params = Except.ok (scanTypes l))
    ∧ (∀ params : Params, paramLookup params "TYPE" = none →
      telCategory params = Except.ok "Work")
    ∧ (∀ (t : String) (rest : List String),
      strLower t = "cell" ∨ strLower t = "mobile" → scanTypes (t :: rest) = "Mobile")
    ∧ (∀ (t : String) (rest : List String),
      strLower t = "home" → scanTypes (t :: rest) = "Home")
    ∧ (∀ (t : String) (rest : List String),
      strLower t = "work" → scanTypes (t :: rest) = "Work")
    ∧ (∀ l : List String,
      (∀ t ∈ l, strLower t ≠ "cell" ∧ strLower t ≠ "mobile" ∧
        strLower t ≠ "home" ∧ strLower t ≠ "work") →
      scanTypes l = "Work")
    ∧ scanTypes ["HOME", "FAX"] = "Home"
    ∧ scanTypes ["PAGER"] = "Work"
    ∧ telCategory [("TYPE", ParamValue.multi ["HOME,FAX"])] = Except.ok "Work" := by
  refine ⟨?_, ?_, ?_, ?_, ?_, ?_, rfl, rfl, rfl⟩
  · intro params l h
    unfold telCategory
    rw [h]
  · intro params h
    unfold telCategory
    rw [h]
  · intro t rest h
    simp only [scanTypes]
    rw [if_pos h]
  · intro t rest h
    simp only [scanTypes]
    rw [if_neg (by rw [h]; decide), if_pos h]
  · intro t rest h
    simp only [scanTypes]
    rw [if_neg (by rw [h]; decide), if_neg (by rw [h]; decide), if_pos h]
  · intro l
    induction l with
    | nil => intro _; rfl
    | cons t rest ih =>
      intro h
      have ht := h t (List.mem_cons_self _ _)
      simp only [scanTypes]
      rw [if_neg (fun hc => hc.elim ht.1 ht.2.1), if_neg ht.2.2.1, if_neg ht.2.2.2]
      exact ih fun t2 ht2 => h t2 (List.mem_cons_of_mem _ ht2)

/-- C6 witness: a decoded singleton list `[CELL]` takes the list-scan
path and yields Mobile, and a head matching home yields Home. -/
theorem type_scan_amended_witness :
    telCategory [("TYPE", ParamValue.multi ["CELL"])] = Except.ok "Mobile"
    ∧ scanTypes ["HOME"] = "Home" :=
  ⟨(type_scan_amended.1 [("TYPE", ParamValue.multi ["CELL"])] ["CELL"] rfl).trans rfl,
    type_scan_amended.2.2.2.1 "HOME" [] (by decide)⟩

/-- The emitter returns `None` exactly for an empty firstName or an
empty phone list. -/
theorem generate_none_iff (n : Nat) (fn ln : String) (ph : List (String × String)) :
    generate_contact_xml n fn ln ph = none ↔ (fn = "" ∨ ph = []) := by
  unfold generate_contact_xml
  split_ifs with hc
  · simp [hc]
  · simp [hc]

/-- C7: a contact with empty firstName or an empty phone list is
rejected — the emitter returns `None`, the loop emits nothing for it and
does not advance the id counter — and whenever the loop succeeds, the
final counter equals the start plus the number of accepted contacts,
every accepted block at position `i` having been generated with id
`start + i` (so from start 1 the ids are the dense sequence 1, 2, 3, …
over accepted contacts only). -/
theorem reject_and_dense_ids :
    (∀ (n : Nat) (fn ln : String) (ph : List (String × String)),
      generate_contact_xml n fn ln ph = none ↔ (fn = "" ∨ ph = []))
    ∧ (∀ (c : Contact) (cs : List Contact) (n : Nat) (fn ln : String)
        (ph : List (String × String)),
      extract_contact_info c = Except.ok (fn, ln, ph) → (fn = "" ∨ ph = []) →
      convertLoop (c :: cs) n = convertLoop cs n)
    ∧ (∀ (cs : List Contact) (n : Nat) (parts : List String) (nF : Nat),
      convertLoop cs n = Except.ok (parts, nF) →
      nF = n + parts.length ∧
      ∀ (i : Nat) (hi : i < parts.length), ∃ fn ln ph,
        generate_contact_xml (n + i) fn ln ph = some (parts.get ⟨i, hi⟩)) := by
  refine ⟨generate_none_iff, ?_, ?_⟩
  · intro c cs n fn ln ph hex hrej
    simp only [convertLoop, hex, (generate_none_iff n fn ln ph).mpr hrej]
  · intro cs
    induction cs with
    | nil =>
      intro n parts nF h
      simp only [convertLoop, Except.ok.injEq, Prod.mk.injEq] at h
      obtain ⟨h1, h2⟩ := h
      subst h1
      subst h2
      exact ⟨rfl, fun i hi => absurd hi (by simp)⟩
    | cons c cs ih =>
      intro n parts nF h
      cases hex : extract_contact_info c with
      | error e =>
        simp only [convertLoop, hex] at h
        exact Except.noConfusion h
      | ok r =>
        cases hgen : generate_contact_xml n r.1 r.2.1 r.2.2 with
        | none =>
          simp only [convertLoop, hex, hgen] at h
          exact ih n parts nF h
        | some x =>
          cases hrec : convertLoop cs (n + 1) with
          | error e =>
            simp only [convertLoop, hex, hgen, hrec] at h
            exact Except.noConfusion h
          | ok pr =>
            obtain ⟨rest, nF2⟩ := pr
            simp only [convertLoop, hex, hgen, hrec, Except.ok.injEq, Prod.mk.injEq] at h
            obtain ⟨h1, h2⟩ := h
            subst h1
            subst h2
            obtain ⟨ihlen, ihidx⟩ := ih (n + 1) rest nF2 hrec
            refine ⟨by simp [ihlen]; omega, ?_⟩
            intro i hi
            cases i with
            | zero => exact ⟨r.1, r.2.1, r.2.2, by simpa using hgen⟩
            | succ j =>
              have hj : j < rest.length := by simpa using hi
              obtain ⟨fn, ln, ph, hg⟩ := ihidx j hj
              refine ⟨fn, ln, ph, ?_⟩
              rw [show n + (j + 1) = n + 1 + j by omega]
              simpa using hg

/-- C7 witness: a contact extracted with an empty phone list is skipped
without consuming an id, and a run over one rejected and one accepted
contact ends with counter 2 = 1 + 1. -/
theorem reject_and_dense_ids_witness :
    convertLoop [cRej] 5 = convertLoop ([] : List Contact) 5
    ∧ (2 : Nat) = 1 + ([xmlBob] : List String).length :=
  ⟨reject_and_dense_ids.2.1 cRej [] 5 "Ann" "" [] rfl (Or.inr rfl),
    (reject_and_dense_ids.2.2 [cRej, cAcc] 1 [xmlBob] 2 rfl).1⟩

/-- C9: the conversion is deterministic — the modelled pipeline is a
pure function of the input text, so two runs on identical input produce
identical output documents. -/
theorem deterministic :
    ∀ s t : String, s = t → convert_vcf_to_xml s = convert_vcf_to_xml t :=
  fun _ _ h => congrArg convert_vcf_to_xml h

/-- C9 witness: two runs on the example input agree. -/
theorem deterministic_witness :
    convert_vcf_to_xml smithInput = convert_vcf_to_xml smithInput :=
  deterministic smithInput smithInput rfl

end Vcf
